import Mathlib

/-!
Verification development for the prediction and explanation pipeline of
`src/model/sklearn.py` (class `SklearnModel`).

The Python class is shallowly embedded below.  Dynamic Python values that can
be either integers or strings (class labels, feature values) are modelled by
`PyVal`; numeric attribution and probability values are modelled by `ℚ`
(the claims under study concern structure, ordering and exact negation, all of
which are exact in IEEE arithmetic as well).  Fallible operations return
`Except Err`.  External capabilities (the fitted estimator's `predict`,
`predict_proba` and `transform` methods, and the SHAP attribution library)
are modelled as opaque-to-the-model function fields and oracle arguments.

The helper methods of the (absent) base class `BaseModel` (`_check`,
`_validate`, `_feature_names`, `_is_binary_classification`,
`_get_predictor_type`) are modelled from the spec, as marked on each
definition.  Everything else is translated directly from `sklearn.py`.
-/

set_option autoImplicit false

namespace MLFlask

/-- A dynamic Python scalar value: an integer or a string. -/
inductive PyVal where
  | int (i : Int)
  | str (s : String)
deriving DecidableEq

/-- Python `str(v)` / `numpy.array(cs, str)` element conversion:
integers render in decimal, strings are unchanged. -/
def pyStr : PyVal → String
  | .int i => toString i
  | .str s => s

/-- Semantic feature type declared in the model metadata (spec section 3). -/
inductive FType where
  | numeric
  | categorical
deriving DecidableEq

/-- Task kind stored in the model metadata. -/
inductive Task where
  | classification
  | regression
deriving DecidableEq

/-- The error kinds of the pipeline (spec section 7).  `ImplementationError`
stands for the Python `IndexError` / `AttributeError` / pandas `ValueError`
raised on malformed internal data (fail-fast conditions). -/
inductive Err where
  | NotReadyError
  | ValidationError
  | UnsupportedTaskError
  | UnsupportedModelError
  | ExplainError
  | ImplementationError
deriving DecidableEq

/-- `matchesAt sub l` is true when `sub` occurs at the very start of `l`. -/
def matchesAt : List Char → List Char → Bool
  | [], _ => true
  | _ :: _, [] => false
  | a :: as, b :: bs => a == b && matchesAt as bs

/-- `hasSubList sub l` is true when `sub` occurs contiguously inside `l`. -/
def hasSubList (sub : List Char) : List Char → Bool
  | [] => matchesAt sub []
  | b :: bs => matchesAt sub (b :: bs) || hasSubList sub bs

/-- Python's `sub in s` substring test on strings. -/
def strHasSub (s sub : String) : Bool :=
  hasSubList sub.data s.data

/-- The runtime structure of a (possibly composed) scikit-learn style
estimator object, as far as `_extract_base_predictor` inspects it:

* `pipeline steps` — an object whose type name is exactly `"Pipeline"`,
  carrying a list of named `steps` (name, sub-estimator);
* `calibrated name base` — an object whose type name contains
  `"CalibratedClassifier"` (for example `CalibratedClassifierCV`), carrying a
  `base_estimator` attribute;
* `plain name classes` — any other fitted estimator, carrying its type name
  and its `classes_` attribute (the fitted class labels; empty and unused for
  regressors).

The constructor tags record which attributes (`steps`, `base_estimator`,
`classes_`) the underlying Python object actually has; the type-name
dispatch of the source is re-checked on the stored names so that an object
whose name promises an attribute it lacks fails fast, as in Python. -/
inductive EstTree where
  | pipeline (steps : List (String × EstTree))
  | calibrated (name : String) (base : EstTree)
  | plain (name : String) (classes : List PyVal)

/-- `type(model).__name__` of an embedded estimator object. -/
def typeName : EstTree → String
  | .pipeline _ => "Pipeline"
  | .calibrated n _ => n
  | .plain n _ => n

/-- The `classes_` attribute of an embedded estimator object, when present. -/
def classesOf : EstTree → Option (List PyVal)
  | .plain _ cs => some cs
  | _ => none

mutual

/-- `SklearnModel._extract_base_predictor` (sklearn.py lines 60-68):

```
model_name = type(model).__name__
if model_name == 'Pipeline':
    return SklearnModel._extract_base_predictor(model.steps[-1][1])
elif 'CalibratedClassifier' in model_name:
    return SklearnModel._extract_base_predictor(model.base_estimator)
else:
    return model
```

`model.steps[-1]` on an empty step list raises `IndexError`, and an object
whose type name triggers a branch but lacks the corresponding attribute
raises `AttributeError`; both are `ImplementationError` here. -/
def extract : EstTree → Except Err EstTree
  | .pipeline steps => extractSteps steps
  | .calibrated n base =>
    if strHasSub n "CalibratedClassifier" then extract base
    else if n = "Pipeline" then .error .ImplementationError
    else .ok (.calibrated n base)
  | .plain n cs =>
    if n = "Pipeline" then .error .ImplementationError
    else if strHasSub n "CalibratedClassifier" then .error .ImplementationError
    else .ok (.plain n cs)

/-- Recursion into `model.steps[-1][1]`: walk to the last step of a pipeline
and extract from its estimator; an empty step list is an `IndexError`. -/
def extractSteps : List (String × EstTree) → Except Err EstTree
  | [] => .error .ImplementationError
  | [s] => extract s.2
  | _ :: s :: rest => extractSteps (s :: rest)

end

/-- A validated tabular structure (the embedding of a pandas `DataFrame`):
an ordered list of column names, a row index, and the rows of cell values. -/
structure Table where
  cols : List String
  index : List Nat
  rows : List (List PyVal)
deriving DecidableEq

/-- Modelled from the spec: the Model Artifact metadata stored with the
estimator (spec section 3) — the ordered feature schema (name and semantic
type), the task kind, and the optional declared class names (the class-name
metadata mentioned by `predict`'s docstring). -/
structure Metadata where
  features : List (String × FType)
  task : Task
  class_names : Option (List String)
deriving DecidableEq

/-- The loaded `SklearnModel` instance.  `ready` is the base-class readiness
flag; `model` is the fitted estimator object (`self._model`); `metadata` is
the stored metadata.  The numeric behaviour of the fitted estimator is an
external capability (spec section 1) and is modelled by the function fields:
`predictFn` is `self._model.predict`, `predictProbaFn` is
`self._model.predict_proba`, and `transformFn` is `self._model.transform`
when `hasattr(self._model, 'transform')` holds (`none` otherwise). -/
structure Model where
  ready : Bool
  model : EstTree
  metadata : Metadata
  predictFn : Table → List PyVal
  predictProbaFn : Table → List (List ℚ)
  transformFn : Option (Table → Table)

/-- Modelled from the spec: `BaseModel._feature_names` — the ordered feature
names of the schema. -/
def featureNames (M : Model) : List String :=
  M.metadata.features.map Prod.fst

/-- Modelled from the spec: the readiness gate of the `_check` decorator
(spec section 7, `NotReadyError`). -/
def checkReady (M : Model) : Except Err Unit :=
  if M.ready then .ok () else .error .NotReadyError

/-- Modelled from the spec: the task gate of `_check(task='classification')`
(spec section 7, `UnsupportedTaskError`). -/
def checkTask (M : Model) : Except Err Unit :=
  if M.metadata.task = Task.classification then .ok () else .error .UnsupportedTaskError

/-- The tuple `SklearnModel._explainable_models` (sklearn.py lines 34-43),
in source order. -/
def explainableModels : List String :=
  ["DecisionTreeClassifier", "DecisionTreeRegressor",
   "RandomForestClassifier", "RandomForestRegressor",
   "XGBClassifier", "XGBRegressor", "Booster",
   "CatBoostClassifier", "CatBoostRegressor",
   "LGBMClassifier", "LGBMRegressor"]

/-- Modelled from the spec: the explainability gate of
`_check(explainable=True)` — the resolved base predictor must belong to the
known explainable family, else `UnsupportedModelError` (spec section 4.4). -/
def checkExplainable (M : Model) : Except Err Unit :=
  match extract M.model with
  | .error e => .error e
  | .ok bp =>
    if explainableModels.contains (typeName bp) then .ok ()
    else .error .UnsupportedModelError

/-- A request body: a single record, a batch of records, or an
already-validated table (the `explain` method feeds the output of
`_validate` back through `preprocess`). -/
inductive Request where
  | single (rec : List (String × PyVal))
  | batch (recs : List (List (String × PyVal)))
  | table (t : Table)

/-- Modelled from the spec: type compatibility of a value with a declared
feature type (spec section 4.1 — a non-numeric value for a numeric feature
is a validation failure). -/
def typeOk : FType → PyVal → Bool
  | .numeric, .int _ => true
  | .categorical, .str _ => true
  | _, _ => false

/-- `mapM` over `Except Err`, written out so that proofs can proceed by
direct induction. -/
def eMapM {α β : Type} (f : α → Except Err β) : List α → Except Err (List β)
  | [] => .ok []
  | x :: xs =>
    match f x with
    | .error e => .error e
    | .ok y =>
      match eMapM f xs with
      | .error e => .error e
      | .ok ys => .ok (y :: ys)

/-- Modelled from the spec: validation of one record against the schema
(spec section 4.1) — every declared feature must be present with a
type-compatible value, and no undeclared feature may appear; the values are
returned in schema order. -/
def validateRecord (schema : List (String × FType)) (rec : List (String × PyVal)) :
    Except Err (List PyVal) :=
  if rec.all (fun kv => (schema.map Prod.fst).contains kv.1) then
    eMapM (fun ft =>
      match rec.lookup ft.1 with
      | some v => if typeOk ft.2 v then .ok v else .error .ValidationError
      | none => .error .ValidationError) schema
  else .error .ValidationError

/-- Modelled from the spec: `BaseModel._validate` (spec section 4.1) — a
single record is normalized into a one-row table, a batch into one row per
record, with columns equal to the schema in declared order; a table that is
already validated (columns equal to the schema) passes through unchanged. -/
def validate (M : Model) : Request → Except Err Table
  | .single rec =>
    match validateRecord M.metadata.features rec with
    | .ok vals => .ok ⟨featureNames M, [0], [vals]⟩
    | .error e => .error e
  | .batch recs =>
    match eMapM (validateRecord M.metadata.features) recs with
    | .ok rows => .ok ⟨featureNames M, List.range rows.length, rows⟩
    | .error e => .error e
  | .table t =>
    if t.cols = featureNames M then .ok t else .error .ValidationError

/-- Application of the estimator's optional `transform` capability
(`hasattr(self._model, 'transform')`, sklearn.py lines 91-94). -/
def applyTransform (M : Model) (t : Table) : Table :=
  match M.transformFn with
  | some f => f t
  | none => t

/-- `SklearnModel.preprocess` (sklearn.py lines 71-94): readiness check,
validate, then the estimator's `transform` if it has one, else the
validated table unchanged. -/
def preprocess (M : Model) (features : Request) : Except Err Table :=
  match checkReady M with
  | .error e => .error e
  | .ok _ =>
    match validate M features with
    | .ok input => .ok (applyTransform M input)
    | .error e => .error e

/-- `SklearnModel.predict` (sklearn.py lines 96-119): readiness check,
validate, then return `self._model.predict(input)` unchanged. -/
def predict (M : Model) (features : Request) : Except Err (List PyVal) :=
  match checkReady M with
  | .error e => .error e
  | .ok _ =>
    match validate M features with
    | .ok input => .ok (M.predictFn input)
    | .error e => .error e

/-- `SklearnModel._get_class_names` (sklearn.py lines 55-57):
`np.array(self._get_predictor().classes_, str)` under
`_check(task='classification')` — the base predictor's own class list,
converted element-wise to strings.  A base predictor without a `classes_`
attribute raises `AttributeError` (`ImplementationError` here). -/
def getClassNames (M : Model) : Except Err (List String) :=
  match checkReady M with
  | .error e => .error e
  | .ok _ =>
    match checkTask M with
    | .error e => .error e
    | .ok _ =>
      match extract M.model with
      | .error e => .error e
      | .ok bp =>
        match classesOf bp with
        | some cs => .ok (cs.map pyStr)
        | none => .error .ImplementationError

/-- `pd.DataFrame(m, index=index, columns=cols).to_dict(orient='records')`:
pandas requires the row count to match the index length and every row to
match the column count (else `ValueError`), and then produces one mapping
per row, keyed by the column names in column order. -/
def dfRecords (m : List (List ℚ)) (index : List Nat) (cols : List String) :
    Except Err (List (List (String × ℚ))) :=
  if m.length == index.length && m.all (fun row => row.length == cols.length) then
    .ok (m.map (fun row => cols.zip row))
  else .error .ImplementationError

/-- `SklearnModel.predict_proba` (sklearn.py lines 121-144): readiness and
task checks, validate, `self._model.predict_proba(input)`, then
`pd.DataFrame(prediction, columns=self._get_class_names()).to_dict('records')`. -/
def predictProba (M : Model) (features : Request) :
    Except Err (List (List (String × ℚ))) :=
  match checkReady M with
  | .error e => .error e
  | .ok _ =>
    match checkTask M with
    | .error e => .error e
    | .ok _ =>
      match validate M features with
      | .error e => .error e
      | .ok input =>
        let prediction := M.predictProbaFn input
        match getClassNames M with
        | .error e => .error e
        | .ok cls => dfRecords prediction (List.range prediction.length) cls

/-- The keyword parameters passed to `shap.TreeExplainer` (sklearn.py lines
182-190): the optional background `data`, `feature_dependence`, and
`model_output`. -/
structure ExplainParams where
  data : Option Table
  feature_dependence : String
  model_output : String
deriving DecidableEq

/-- The parameter-selection step of `explain` (sklearn.py lines 182-190):

```
if samples is None:
    params = {'feature_dependence': 'tree_path_dependent',
              'model_output': 'margin'}
else:
    params = {'data': self.preprocess(self._validate(samples)),
              'feature_dependence': 'independent',
              'model_output': 'probability'}
``` -/
def explainParams (M : Model) (samples : Option Request) : Except Err ExplainParams :=
  match samples with
  | none => .ok ⟨none, "tree_path_dependent", "margin"⟩
  | some s =>
    match validate M s with
    | .error e => .error e
    | .ok v =>
      match preprocess M (.table v) with
      | .error e => .error e
      | .ok p => .ok ⟨some p, "independent", "probability"⟩

/-- `preprocessed[colnames]` — pandas column selection: the requested columns
in the requested order, every requested column present (else `KeyError`). -/
def selectCols (t : Table) (cols : List String) : Except Err Table :=
  match eMapM (fun c =>
      match t.cols.findIdx? (fun x => x == c) with
      | some i => .ok i
      | none => .error .ImplementationError) cols with
  | .error e => .error e
  | .ok idxs =>
    match eMapM (fun row => eMapM (fun i =>
        match row.get? i with
        | some v => .ok v
        | none => .error .ImplementationError) idxs) t.rows with
    | .error e => .error e
    | .ok rows => .ok ⟨cols, t.index, rows⟩

/-- The data argument handed to `explainer.shap_values` (sklearn.py line
199): either the pandas table with its named-column structure
(`input_data`), or the bare numeric array (`input_data.values`). -/
inductive InputData where
  | named (t : Table)
  | bare (rows : List (List PyVal))
deriving DecidableEq

/-- `use_pandas` (sklearn.py line 198):
`any(c in predictor_type for c in ('LGBMClassifier', 'LGBMRegressor'))`. -/
def explainUsePandas (ptype : String) : Bool :=
  strHasSub ptype "LGBMClassifier" || strHasSub ptype "LGBMRegressor"

/-- `input_data if use_pandas else input_data.values` (sklearn.py line 199). -/
def explainInputData (ptype : String) (t : Table) : InputData :=
  if explainUsePandas ptype then .named t else .bare t.rows

/-- The raw output of `explainer.shap_values` as the source discriminates it
(sklearn.py lines 206-215): a Python `list` of per-class arrays, a single
`numpy.ndarray`, or any other object. -/
inductive ShapOutput where
  | perClass (arrays : List (List (List ℚ)))
  | single (m : List (List ℚ))
  | other
deriving DecidableEq

/-- Modelled from the spec: `BaseModel._is_binary_classification` — the task
is classification and there are exactly two classes (spec section 4.4: a
single shared array is "only valid when there are exactly two classes"). -/
def isBinaryClassification (M : Model) : Bool :=
  if M.metadata.task = Task.classification then
    match extract M.model with
    | .ok bp =>
      match classesOf bp with
      | some cs => cs.length == 2
      | none => false
    | .error _ => false
  else false

/-- The raw-shape discrimination of `explain` (sklearn.py lines 206-215):
a list means one array per class; an ndarray is accepted only for binary
classification (and then triggers the negation post-processing); anything
else raises `ValueError('Unknown objet class for shap_values variable')`,
the fatal `ExplainError`. -/
def shapeDecision (M : Model) (sv : ShapOutput) : Except Err Bool :=
  match sv with
  | .perClass _ => .ok false
  | .single _ =>
    if isBinaryClassification M then .ok true else .error .ExplainError
  | .other => .error .ExplainError

/-- The per-class value selection of the formatting loop (sklearn.py lines
217-221): with `process_shap_values` set, class index `0` receives
`shap_values * (-1)` — numpy scalar multiplication by `-1`, which is exact
elementwise negation (`x * (-1) = -x` holds exactly, in IEEE arithmetic as
well; see `negation_is_scale_by_minus_one` below) — and every other class
index receives `shap_values` unchanged; otherwise class index `i` receives
`shap_values[i]` (an index out of range raises `IndexError`). -/
def classShapValues (sv : ShapOutput) (process : Bool) (i : Nat) :
    Except Err (List (List ℚ)) :=
  if process then
    match sv with
    | .single m => .ok (if i = 0 then m.map (List.map (fun q => -q)) else m)
    | _ => .error .ImplementationError
  else
    match sv with
    | .perClass arrays =>
      match arrays.get? i with
      | some a => .ok a
      | none => .error .ImplementationError
    | _ => .error .ImplementationError

/-- One iteration of the formatting loop (sklearn.py lines 217-223):
`result[c] = pd.DataFrame(_values, index=index, columns=colnames).to_dict('records')`. -/
def formatClass (sv : ShapOutput) (process : Bool) (index : List Nat)
    (cols : List String) (ic : Nat × String) :
    Except Err (String × List (List (String × ℚ))) :=
  match classShapValues sv process ic.1 with
  | .error e => .error e
  | .ok vals =>
    match dfRecords vals index cols with
    | .error e => .error e
    | .ok recs => .ok (ic.2, recs)

/-- The normalized attribution result (spec section 3): for classification a
mapping from class label to a per-record sequence of feature-name-keyed
mappings, for regression the per-record sequence itself.  The
classification mapping is kept as the ordered association list the Python
`dict` is built from. -/
inductive ExplainResult where
  | classification (entries : List (String × List (List (String × ℚ))))
  | regression (recs : List (List (String × ℚ)))
deriving DecidableEq

/-- `SklearnModel.explain` (sklearn.py lines 146-227).  The SHAP library
(`shap.TreeExplainer(...).shap_values(...)`) is the external attribution
capability (spec section 6) and is passed in as the oracle `shapFn`, applied
to the resolved base predictor, the selected parameters and the prepared
input data.  `_get_predictor_type` (absent base class) is modelled from the
spec design notes as the type name of the resolved base predictor. -/
def explain (M : Model) (shapFn : EstTree → ExplainParams → InputData → ShapOutput)
    (features : Request) (samples : Option Request) : Except Err ExplainResult :=
  match checkReady M with
  | .error e => .error e
  | .ok _ =>
  match checkExplainable M with
  | .error e => .error e
  | .ok _ =>
  match preprocess M features with
  | .error e => .error e
  | .ok preprocessed =>
  match explainParams M samples with
  | .error e => .error e
  | .ok params =>
  match extract M.model with
  | .error e => .error e
  | .ok basePred =>
    let colnames := featureNames M
    match selectCols preprocessed colnames with
    | .error e => .error e
    | .ok input_data =>
      let sv := shapFn basePred params (explainInputData (typeName basePred) input_data)
      let index := preprocessed.index
      if M.metadata.task = Task.classification then
        match getClassNames M with
        | .error e => .error e
        | .ok class_names =>
        match shapeDecision M sv with
        | .error e => .error e
        | .ok process =>
        match eMapM (formatClass sv process index colnames) class_names.enum with
        | .error e => .error e
        | .ok entries => .ok (.classification entries)
      else
        match sv with
        | .single m =>
          match dfRecords m index colnames with
          | .error e => .error e
          | .ok recs => .ok (.regression recs)
        | _ => .error .ImplementationError

/-- Decidable equality of fallible results, so that concrete runs of the
embedded operations can be checked by evaluation. -/
instance {ε α : Type} [DecidableEq ε] [DecidableEq α] : DecidableEq (Except ε α) :=
  fun x y =>
    match x, y with
    | .ok a, .ok b =>
      if h : a = b then .isTrue (by rw [h])
      else .isFalse (fun hh => by cases hh; exact h rfl)
    | .ok _, .error _ => .isFalse (fun hh => by cases hh)
    | .error _, .ok _ => .isFalse (fun hh => by cases hh)
    | .error e, .error f =>
      if h : e = f then .isTrue (by rw [h])
      else .isFalse (fun hh => by cases hh; exact h rfl)

/-! Concrete instances used to exercise the definitions. -/

/-- A two-feature schema matching the spec's example scenario. -/
def schemaTwo : List (String × FType) := [("age", .numeric), ("color", .categorical)]

/-- A ready binary LightGBM classifier over a single numeric feature. -/
def mdlBin : Model where
  ready := true
  model := .plain "LGBMClassifier" [.int 0, .int 1]
  metadata := ⟨[("age", .numeric)], .classification, none⟩
  predictFn := fun t => t.rows.map (fun _ => .int 0)
  predictProbaFn := fun t => t.rows.map (fun _ => [1, 0])
  transformFn := none

/-- An attribution oracle returning one shared array (the LightGBM binary
case): one row, one feature, value `2`. -/
def shapSingleFn : EstTree → ExplainParams → InputData → ShapOutput :=
  fun _ _ _ => .single [[2]]

/-- An attribution oracle returning an unrecognized object. -/
def shapOtherFn : EstTree → ExplainParams → InputData → ShapOutput :=
  fun _ _ _ => .other

/-- A single record for the one-feature schema. -/
def reqAge : Request := .single [("age", .int 30)]

/-- A ready classifier whose metadata declares class names, but whose
estimator predicts integer-encoded labels. -/
def mdlC3 : Model where
  ready := true
  model := .plain "RandomForestClassifier" [.int 0, .int 1]
  metadata := ⟨[("age", .numeric)], .classification, some ["no", "yes"]⟩
  predictFn := fun t => t.rows.map (fun _ => .int 0)
  predictProbaFn := fun _ => []
  transformFn := none

/-- A ready classifier whose fitted estimator is a pipeline ending in a
calibration wrapper around a random forest with integer classes, while the
artifact metadata declares the class names `no`/`yes`. -/
def mdlPipe : Model where
  ready := true
  model := .pipeline
    [("scaler", .plain "StandardScaler" []),
     ("clf", .calibrated "CalibratedClassifierCV"
        (.plain "RandomForestClassifier" [.int 0, .int 1]))]
  metadata := ⟨schemaTwo, .classification, some ["no", "yes"]⟩
  predictFn := fun t => t.rows.map (fun _ => .int 1)
  predictProbaFn := fun t => t.rows.map (fun _ => [0, 1])
  transformFn := none

/-- The one-row table produced by validating `reqAge`. -/
def tAge : Table := ⟨["age"], [0], [[.int 30]]⟩

/-- Two raw records for the two-feature schema. -/
def recsTwo : List (List (String × PyVal)) :=
  [[("age", .int 30), ("color", .str "red")],
   [("age", .int 25), ("color", .str "blue")]]

/-- A two-record batch for the two-feature schema. -/
def reqBatchTwo : Request := .batch recsTwo

/-- The table produced by validating `reqBatchTwo`. -/
def tTwo : Table :=
  ⟨["age", "color"], [0, 1], [[.int 30, .str "red"], [.int 25, .str "blue"]]⟩

/-- A ready decision-tree regressor over the two-feature schema. -/
def mdlReg : Model where
  ready := true
  model := .plain "DecisionTreeRegressor" []
  metadata := ⟨schemaTwo, .regression, none⟩
  predictFn := fun t => t.rows.map (fun _ => .int 0)
  predictProbaFn := fun _ => []
  transformFn := none

/-- An attribution oracle for the regression fixture: one row, two features. -/
def shapRegFn : EstTree → ExplainParams → InputData → ShapOutput :=
  fun _ _ _ => .single [[1, 2]]

/-- A one-record request for the two-feature schema. -/
def reqOneTwo : Request := .single [("age", .int 30), ("color", .str "red")]

/-- A two-layer estimator composition used to exercise the unwrapper. -/
def estPipeW : EstTree :=
  .pipeline [("scaler", .plain "StandardScaler" []),
             ("clf", .calibrated "CalibratedClassifierCV"
                (.plain "RandomForestClassifier" [.int 0, .int 1]))]

/-! Helper lemmas. -/

/-- Characterization of every successful extraction: the result is a fixed
point of `extract` and is, by type name, neither a pipeline nor a
calibration wrapper. -/
theorem extract_ok_base :
    ∀ t : EstTree, ∀ r, extract t = .ok r →
      extract r = .ok r ∧ typeName r ≠ "Pipeline" ∧
      strHasSub (typeName r) "CalibratedClassifier" = false := by
  refine extract.induct
    (fun t => ∀ r, extract t = .ok r →
      extract r = .ok r ∧ typeName r ≠ "Pipeline" ∧
      strHasSub (typeName r) "CalibratedClassifier" = false)
    (fun steps => ∀ r, extractSteps steps = .ok r →
      extract r = .ok r ∧ typeName r ≠ "Pipeline" ∧
      strHasSub (typeName r) "CalibratedClassifier" = false)
    ?_ ?_ ?_ ?_ ?_ ?_ ?_ ?_ ?_ ?_
  · intro steps ih r h
    rw [extract] at h
    exact ih r h
  · intro n base hsub ih r h
    rw [extract, if_pos hsub] at h
    exact ih r h
  · intro base hsub r h
    rw [extract, if_neg (by simp [hsub]), if_pos rfl] at h
    cases h
  · intro n base hsub hn r h
    rw [extract, if_neg (by simp [hsub]), if_neg hn] at h
    cases h
    refine ⟨?_, hn, by simp [typeName, Bool.not_eq_true] at hsub ⊢; exact hsub⟩
    rw [extract, if_neg (by simp [hsub]), if_neg hn]
  · intro classes r h
    rw [extract, if_pos rfl] at h
    cases h
  · intro n classes hn hsub r h
    rw [extract, if_neg hn, if_pos hsub] at h
    cases h
  · intro n classes hn hsub r h
    rw [extract, if_neg hn, if_neg (by simp [hsub])] at h
    cases h
    refine ⟨?_, hn, by simp [typeName, Bool.not_eq_true] at hsub ⊢; exact hsub⟩
    rw [extract, if_neg hn, if_neg (by simp [hsub])]
  · intro r h
    rw [extractSteps] at h
    cases h
  · intro s ih r h
    rw [extractSteps] at h
    exact ih r h
  · intro head s rest ih r h
    rw [extractSteps] at h
    exact ih r h

theorem eMapM_ok_length {α β : Type} (f : α → Except Err β) :
    ∀ (l : List α) (ys : List β), eMapM f l = .ok ys → ys.length = l.length := by
  intro l
  induction l with
  | nil =>
    intro ys h
    cases h
    rfl
  | cons x xs ih =>
    intro ys h
    rw [eMapM] at h
    cases hfx : f x with
    | error e => rw [hfx] at h; cases h
    | ok y =>
      rw [hfx] at h
      cases hrest : eMapM f xs with
      | error e => rw [hrest] at h; cases h
      | ok ys2 =>
        rw [hrest] at h
        cases h
        simp [ih ys2 hrest]

theorem eMapM_ok_mem {α β : Type} (f : α → Except Err β) :
    ∀ (l : List α) (ys : List β), eMapM f l = .ok ys →
      ∀ y ∈ ys, ∃ x ∈ l, f x = .ok y := by
  intro l
  induction l with
  | nil =>
    intro ys h
    cases h
    intro y hy
    cases hy
  | cons x xs ih =>
    intro ys h
    rw [eMapM] at h
    cases hfx : f x with
    | error e => rw [hfx] at h; cases h
    | ok y =>
      rw [hfx] at h
      cases hrest : eMapM f xs with
      | error e => rw [hrest] at h; cases h
      | ok ys2 =>
        rw [hrest] at h
        cases h
        intro z hz
        cases hz with
        | head => exact ⟨x, List.mem_cons_self x xs, hfx⟩
        | tail _ hz2 =>
          obtain ⟨w, hw, hfw⟩ := ih ys2 hrest z hz2
          exact ⟨w, List.mem_cons_of_mem x hw, hfw⟩

theorem eMapM_ok_map {α β γ : Type} (f : α → Except Err β) (g : β → γ) (p : α → γ)
    (hfg : ∀ x y, f x = .ok y → g y = p x) :
    ∀ (l : List α) (ys : List β), eMapM f l = .ok ys → ys.map g = l.map p := by
  intro l
  induction l with
  | nil =>
    intro ys h
    cases h
    rfl
  | cons x xs ih =>
    intro ys h
    rw [eMapM] at h
    cases hfx : f x with
    | error e => rw [hfx] at h; cases h
    | ok y =>
      rw [hfx] at h
      cases hrest : eMapM f xs with
      | error e => rw [hrest] at h; cases h
      | ok ys2 =>
        rw [hrest] at h
        cases h
        simp [hfg x y hfx, ih ys2 hrest]

theorem dfRecords_ok (m : List (List ℚ)) (index : List Nat) (cols : List String)
    (recs : List (List (String × ℚ))) (h : dfRecords m index cols = .ok recs) :
    recs = m.map (fun row => cols.zip row) ∧ m.length = index.length ∧
    ∀ row ∈ m, row.length = cols.length := by
  rw [dfRecords] at h
  split at h
  · next hc =>
    cases h
    simp only [Bool.and_eq_true, beq_iff_eq, List.all_eq_true] at hc
    exact ⟨rfl, hc.1, fun row hrow => by have := hc.2 row hrow; simpa using this⟩
  · cases h

theorem dfRecords_keys (m : List (List ℚ)) (index : List Nat) (cols : List String)
    (recs : List (List (String × ℚ))) (h : dfRecords m index cols = .ok recs) :
    ∀ rec ∈ recs, rec.map Prod.fst = cols := by
  obtain ⟨hr, _, hw⟩ := dfRecords_ok m index cols recs h
  subst hr
  intro rec hrec
  simp only [List.mem_map] at hrec
  obtain ⟨row, hrow, rfl⟩ := hrec
  exact List.map_fst_zip cols row (le_of_eq (hw row hrow).symm)

theorem lookup_zip_neg (cols : List String) :
    ∀ (row : List ℚ) (f : String) (v : ℚ),
      (cols.zip row).lookup f = some v →
      (cols.zip (row.map (fun q => -q))).lookup f = some (-v) := by
  induction cols with
  | nil =>
    intro row f v h
    simp [List.lookup] at h
  | cons c cs ih =>
    intro row f v h
    cases row with
    | nil => simp [List.lookup] at h
    | cons r rs =>
      simp only [List.zip_cons_cons, List.map_cons] at h ⊢
      cases hfc : f == c with
      | true =>
        rw [List.lookup, hfc] at h
        cases h
        rw [List.lookup, hfc]
      | false =>
        rw [List.lookup, hfc] at h
        rw [List.lookup, hfc]
        exact ih rs f v h

theorem lookup_zip_neg_rev (cols : List String) :
    ∀ (row : List ℚ) (f : String) (v : ℚ),
      (cols.zip (row.map (fun q => -q))).lookup f = some v →
      (cols.zip row).lookup f = some (-v) := by
  induction cols with
  | nil =>
    intro row f v h
    simp [List.lookup] at h
  | cons c cs ih =>
    intro row f v h
    cases row with
    | nil => simp [List.lookup] at h
    | cons r rs =>
      simp only [List.zip_cons_cons, List.map_cons] at h ⊢
      cases hfc : f == c with
      | true =>
        rw [List.lookup, hfc] at h
        cases h
        rw [List.lookup, hfc]
        simp
      | false =>
        rw [List.lookup, hfc] at h
        rw [List.lookup, hfc]
        exact ih rs f v h

/-- Inversion of batch validation: a successful validation yields a table
with the schema's columns, a `0..n-1` index, and one row per input record. -/
theorem validate_batch_ok (M : Model) (recs : List (List (String × PyVal))) (t : Table)
    (h : validate M (.batch recs) = .ok t) :
    t.cols = featureNames M ∧ t.index = List.range recs.length ∧
    t.rows.length = recs.length := by
  rw [validate] at h
  cases hv : eMapM (validateRecord M.metadata.features) recs with
  | error e => rw [hv] at h; cases h
  | ok rows =>
    rw [hv] at h
    cases h
    have hl := eMapM_ok_length _ recs rows hv
    exact ⟨rfl, by rw [hl], hl⟩

/-- Inversion of one formatting-loop iteration: a successful entry carries
the class name of its loop position, and its records come from a successful
`dfRecords` call on the values selected for that class index. -/
theorem formatClass_ok (sv : ShapOutput) (process : Bool) (index : List Nat)
    (cols : List String) (ic : Nat × String)
    (y : String × List (List (String × ℚ)))
    (h : formatClass sv process index cols ic = .ok y) :
    y.1 = ic.2 ∧ ∃ vals, classShapValues sv process ic.1 = .ok vals ∧
      dfRecords vals index cols = .ok y.2 := by
  rw [formatClass] at h
  cases hcv : classShapValues sv process ic.1 with
  | error e => simp only [hcv] at h; cases h
  | ok vals =>
  simp only [hcv] at h
  cases hdf : dfRecords vals index cols with
  | error e => simp only [hdf] at h; cases h
  | ok recs =>
  simp only [hdf] at h
  cases h
  exact ⟨rfl, vals, rfl, hdf⟩

/-- Inversion of a successful classification `explain` run: the entry keys
are exactly the class names (in order), and every per-record mapping is
keyed by the schema's feature names (in order). -/
theorem explain_classification_ok (M : Model)
    (shapFn : EstTree → ExplainParams → InputData → ShapOutput)
    (features : Request) (samples : Option Request)
    (entries : List (String × List (List (String × ℚ))))
    (h : explain M shapFn features samples = .ok (.classification entries)) :
    ∃ cls pre, preprocess M features = .ok pre ∧ getClassNames M = .ok cls ∧
      entries.map Prod.fst = cls ∧
      ∀ e ∈ entries, ∀ rec ∈ e.2, rec.map Prod.fst = featureNames M := by
  rw [explain] at h
  cases hcr : checkReady M with
  | error e => simp only [hcr] at h; cases h
  | ok u =>
  simp only [hcr] at h
  cases hce : checkExplainable M with
  | error e => simp only [hce] at h; cases h
  | ok u2 =>
  simp only [hce] at h
  cases hpre : preprocess M features with
  | error e => simp only [hpre] at h; cases h
  | ok pre =>
  simp only [hpre] at h
  cases hpar : explainParams M samples with
  | error e => simp only [hpar] at h; cases h
  | ok params =>
  simp only [hpar] at h
  cases hex : extract M.model with
  | error e => simp only [hex] at h; cases h
  | ok basePred =>
  simp only [hex] at h
  cases hsel : selectCols pre (featureNames M) with
  | error e => simp only [hsel] at h; cases h
  | ok input_data =>
  simp only [hsel] at h
  by_cases htask : M.metadata.task = Task.classification
  · simp only [if_pos htask] at h
    cases hcn : getClassNames M with
    | error e => simp only [hcn] at h; cases h
    | ok class_names =>
    simp only [hcn] at h
    cases hsd : shapeDecision M
        (shapFn basePred params (explainInputData (typeName basePred) input_data)) with
    | error e => simp only [hsd] at h; cases h
    | ok process =>
    simp only [hsd] at h
    cases hmm : eMapM
        (formatClass (shapFn basePred params (explainInputData (typeName basePred) input_data))
          process pre.index (featureNames M)) class_names.enum with
    | error e => simp only [hmm] at h; cases h
    | ok entries2 =>
    simp only [hmm] at h
    have hkeys : entries2.map Prod.fst = class_names := by
      have hmap := eMapM_ok_map _ Prod.fst Prod.snd
        (fun ic y hy => (formatClass_ok _ _ _ _ ic y hy).1) class_names.enum entries2 hmm
      rw [hmap, List.enum_map_snd]
    have hrecs : ∀ e ∈ entries2, ∀ rec ∈ e.2, rec.map Prod.fst = featureNames M := by
      intro e he rec hrec
      obtain ⟨ic, _, hfc⟩ := eMapM_ok_mem _ class_names.enum entries2 hmm e he
      obtain ⟨_, vals, _, hdf⟩ := formatClass_ok _ _ _ _ ic e hfc
      exact dfRecords_keys vals pre.index (featureNames M) e.2 hdf rec hrec
    have he2 : entries2 = entries := by
      injection h with hh
      injection hh
    exact ⟨class_names, pre, rfl, rfl, he2 ▸ hkeys, he2 ▸ hrecs⟩
  · simp only [if_neg htask] at h
    cases hsv : shapFn basePred params (explainInputData (typeName basePred) input_data) with
    | perClass arrays => simp only [hsv] at h; cases h
    | single m =>
      simp only [hsv] at h
      cases hdf : dfRecords m pre.index (featureNames M) with
      | error e => simp only [hdf] at h; cases h
      | ok recs => simp only [hdf] at h; cases h
    | other => simp only [hsv] at h; cases h

/-- Inversion of single-record validation: a one-row table over the schema
columns with index `[0]`. -/
theorem validate_single_ok (M : Model) (rec : List (String × PyVal)) (t : Table)
    (h : validate M (.single rec) = .ok t) :
    t.cols = featureNames M ∧ t.index = [0] ∧ t.rows.length = 1 := by
  rw [validate] at h
  cases hv : validateRecord M.metadata.features rec with
  | error e => simp only [hv] at h; cases h
  | ok vals =>
    simp only [hv] at h
    cases h
    exact ⟨rfl, rfl, rfl⟩

/-- Inversion of `preprocess`: the model was ready, validation succeeded and
the optional transform was applied. -/
theorem preprocess_ok (M : Model) (features : Request) (pre : Table)
    (h : preprocess M features = .ok pre) :
    M.ready = true ∧ ∃ v, validate M features = .ok v ∧ pre = applyTransform M v := by
  rw [preprocess] at h
  cases hcr : checkReady M with
  | error e => simp only [hcr] at h; cases h
  | ok u =>
  simp only [hcr] at h
  cases hv : validate M features with
  | error e => simp only [hv] at h; cases h
  | ok v =>
  simp only [hv] at h
  cases h
  refine ⟨?_, v, rfl, rfl⟩
  rw [checkReady] at hcr
  by_cases hr : M.ready = true
  · exact hr
  · rw [if_neg (by simp [hr])] at hcr; cases hcr

/-- Inversion of `_get_class_names`: the names are the element-wise string
rendering of the resolved base predictor's own class list. -/
theorem getClassNames_ok (M : Model) (L : List String)
    (h : getClassNames M = .ok L) :
    ∃ bp cs, extract M.model = .ok bp ∧ classesOf bp = some cs ∧
      L = cs.map pyStr := by
  rw [getClassNames] at h
  cases hcr : checkReady M with
  | error e => simp only [hcr] at h; cases h
  | ok u =>
  simp only [hcr] at h
  cases hct : checkTask M with
  | error e => simp only [hct] at h; cases h
  | ok u2 =>
  simp only [hct] at h
  cases hex : extract M.model with
  | error e => simp only [hex] at h; cases h
  | ok bp =>
  simp only [hex] at h
  cases hcs : classesOf bp with
  | none => simp only [hcs] at h; cases h
  | some cs =>
  simp only [hcs] at h
  cases h
  refine ⟨bp, cs, ?_, ?_, ?_⟩ <;> first | rfl | exact hcs

/-- Inversion of a successful `predict_proba` call. -/
theorem predictProba_ok (M : Model) (features : Request)
    (res : List (List (String × ℚ)))
    (h : predictProba M features = .ok res) :
    ∃ input cls, validate M features = .ok input ∧ getClassNames M = .ok cls ∧
      dfRecords (M.predictProbaFn input)
        (List.range (M.predictProbaFn input).length) cls = .ok res := by
  rw [predictProba] at h
  cases hcr : checkReady M with
  | error e => simp only [hcr] at h; cases h
  | ok u =>
  simp only [hcr] at h
  cases hct : checkTask M with
  | error e => simp only [hct] at h; cases h
  | ok u2 =>
  simp only [hct] at h
  cases hv : validate M features with
  | error e => simp only [hv] at h; cases h
  | ok input =>
  simp only [hv] at h
  cases hcn : getClassNames M with
  | error e => simp only [hcn] at h; cases h
  | ok cls =>
  simp only [hcn] at h
  exact ⟨input, cls, rfl, rfl, h⟩

/-- Inversion of a successful regression `explain` run: the records come
from a `dfRecords` call over the preprocessed table's index and the schema
columns. -/
theorem explain_regression_ok (M : Model)
    (shapFn : EstTree → ExplainParams → InputData → ShapOutput)
    (features : Request) (samples : Option Request)
    (recsL : List (List (String × ℚ)))
    (h : explain M shapFn features samples = .ok (.regression recsL)) :
    ∃ pre m, preprocess M features = .ok pre ∧
      dfRecords m pre.index (featureNames M) = .ok recsL := by
  rw [explain] at h
  cases hcr : checkReady M with
  | error e => simp only [hcr] at h; cases h
  | ok u =>
  simp only [hcr] at h
  cases hce : checkExplainable M with
  | error e => simp only [hce] at h; cases h
  | ok u2 =>
  simp only [hce] at h
  cases hpre : preprocess M features with
  | error e => simp only [hpre] at h; cases h
  | ok pre =>
  simp only [hpre] at h
  cases hpar : explainParams M samples with
  | error e => simp only [hpar] at h; cases h
  | ok params =>
  simp only [hpar] at h
  cases hex : extract M.model with
  | error e => simp only [hex] at h; cases h
  | ok basePred =>
  simp only [hex] at h
  cases hsel : selectCols pre (featureNames M) with
  | error e => simp only [hsel] at h; cases h
  | ok input_data =>
  simp only [hsel] at h
  by_cases htask : M.metadata.task = Task.classification
  · simp only [if_pos htask] at h
    cases hcn : getClassNames M with
    | error e => simp only [hcn] at h; cases h
    | ok class_names =>
    simp only [hcn] at h
    cases hsd : shapeDecision M
        (shapFn basePred params (explainInputData (typeName basePred) input_data)) with
    | error e => simp only [hsd] at h; cases h
    | ok process =>
    simp only [hsd] at h
    cases hmm : eMapM
        (formatClass (shapFn basePred params (explainInputData (typeName basePred) input_data))
          process pre.index (featureNames M)) class_names.enum with
    | error e => simp only [hmm] at h; cases h
    | ok entries2 => simp only [hmm] at h; cases h
  · simp only [if_neg htask] at h
    cases hsv : shapFn basePred params (explainInputData (typeName basePred) input_data) with
    | perClass arrays => simp only [hsv] at h; cases h
    | single m =>
      simp only [hsv] at h
      cases hdf : dfRecords m pre.index (featureNames M) with
      | error e => simp only [hdf] at h; cases h
      | ok recs =>
        simp only [hdf] at h
        have hr2 : recs = recsL := by
          injection h with hh
          injection hh
        exact ⟨pre, m, rfl, hr2 ▸ hdf⟩
    | other => simp only [hsv] at h; cases h

/-! Claim theorems. -/

/-- C5: `resolve_base_predictor` (`_extract_base_predictor`, embedded as the
total function `extract` — totality is Lean's rendering of termination on
every estimator of finite nesting depth) never returns an estimator that is
a sequential composition (type name `Pipeline`) or a calibration wrapper
(type name containing `CalibratedClassifier`); and a composition with zero
steps fails fast with an error rather than silently returning. -/
theorem C5_unwrapper_terminates_base :
    (∀ t r, extract t = .ok r →
       typeName r ≠ "Pipeline" ∧
       strHasSub (typeName r) "CalibratedClassifier" = false) ∧
    extract (.pipeline []) = .error .ImplementationError :=
  ⟨fun t r h => (extract_ok_base t r h).2, rfl⟩

/-- Witness for C5 at a concrete two-layer composition. -/
theorem C5_unwrapper_terminates_base_witness :
    (typeName (.plain "RandomForestClassifier" [.int 0, .int 1]) ≠ "Pipeline" ∧
     strHasSub (typeName (.plain "RandomForestClassifier" [.int 0, .int 1]))
       "CalibratedClassifier" = false) ∧
    extract (.pipeline []) = .error .ImplementationError :=
  ⟨C5_unwrapper_terminates_base.1 estPipeW
     (.plain "RandomForestClassifier" [.int 0, .int 1]) rfl,
   C5_unwrapper_terminates_base.2⟩

/-- C6: `resolve_base_predictor` is idempotent — every successful result is
a fixed point — and a plain (non-composition, non-calibration) estimator is
returned unchanged. -/
theorem C6_unwrapper_idempotent :
    (∀ x r, extract x = .ok r → extract r = .ok r) ∧
    (∀ n cs, n ≠ "Pipeline" → strHasSub n "CalibratedClassifier" = false →
       extract (.plain n cs) = .ok (.plain n cs)) :=
  ⟨fun x r h => (extract_ok_base x r h).1,
   fun n cs hn hsub => by rw [extract, if_neg hn, if_neg (by simp [hsub])]⟩

/-- Witness for C6: idempotence at the concrete composition `estPipeW`, and
a plain estimator returned unchanged. -/
theorem C6_unwrapper_idempotent_witness :
    extract (EstTree.plain "RandomForestClassifier" [.int 0, .int 1]) =
      .ok (.plain "RandomForestClassifier" [.int 0, .int 1]) ∧
    extract (.plain "DecisionTreeClassifier" []) =
      .ok (.plain "DecisionTreeClassifier" []) :=
  ⟨C6_unwrapper_idempotent.1 estPipeW _ rfl,
   C6_unwrapper_idempotent.2 "DecisionTreeClassifier" [] (by decide) (by decide)⟩

/-- C7: `explain` selects the attribution-algorithm parameters solely from
whether a background sample is supplied — no background yields raw-output
space (`model_output = 'margin'`) under the training-path-dependent policy
(`feature_dependence = 'tree_path_dependent'`) with no background data, and
a supplied background yields probability space
(`model_output = 'probability'`) with `feature_dependence = 'independent'`
and the validated-and-preprocessed background as `data`.  `explainParams` is
the parameter-selection step of `explain` (sklearn.py lines 182-190), and
`explain` applies the attribution oracle to its result. -/
theorem C7_background_param_policy (M : Model) (s : Request) (v p : Table)
    (hv : validate M s = .ok v)
    (hp : preprocess M (.table v) = .ok p) :
    explainParams M none = .ok ⟨none, "tree_path_dependent", "margin"⟩ ∧
    explainParams M (some s) = .ok ⟨some p, "independent", "probability"⟩ := by
  refine ⟨rfl, ?_⟩
  simp only [explainParams, hv, hp]

/-- Witness for C7 on the concrete binary model and a one-record background. -/
theorem C7_background_param_policy_witness :
    explainParams mdlBin none = .ok ⟨none, "tree_path_dependent", "margin"⟩ ∧
    explainParams mdlBin (some reqAge) =
      .ok ⟨some tAge, "independent", "probability"⟩ :=
  C7_background_param_policy mdlBin reqAge tAge tAge (by decide) (by decide)

/-- C9: among the explainable predictor families, exactly the LGBM
classifier/regressor families are detected (by type name of the resolved
base predictor) as requiring named-column input; for them the feature table
is passed with its named-column structure, and for every other family as a
bare numeric array (sklearn.py lines 194-199). -/
theorem C9_lgbm_pandas_input (ptype : String) (t : Table)
    (hmem : ptype ∈ explainableModels) :
    (explainUsePandas ptype = true ↔
       (ptype = "LGBMClassifier" ∨ ptype = "LGBMRegressor")) ∧
    (explainUsePandas ptype = true → explainInputData ptype t = .named t) ∧
    (explainUsePandas ptype = false → explainInputData ptype t = .bare t.rows) := by
  refine ⟨?_, fun h => by rw [explainInputData, if_pos h],
    fun h => by rw [explainInputData, if_neg (by simp [h])]⟩
  fin_cases hmem <;> decide

/-- Witness for C9 at the `LGBMClassifier` family and a concrete table. -/
theorem C9_lgbm_pandas_input_witness :
    (explainUsePandas "LGBMClassifier" = true ↔
       ("LGBMClassifier" = "LGBMClassifier" ∨ "LGBMClassifier" = "LGBMRegressor")) ∧
    (explainUsePandas "LGBMClassifier" = true →
       explainInputData "LGBMClassifier" tAge = .named tAge) ∧
    (explainUsePandas "LGBMClassifier" = false →
       explainInputData "LGBMClassifier" tAge = .bare tAge.rows) :=
  C9_lgbm_pandas_input "LGBMClassifier" tAge (by decide)

/-- C3 (amended): `predict` validates and then returns exactly the
estimator's raw predicted labels, one per input record (given the
estimator-capability contract of one output per row); it performs no
conversion through the class-name metadata, so the label type is whatever
the estimator itself produces. -/
theorem C3_predict_raw_labels (M : Model) (recs : List (List (String × PyVal))) (t : Table)
    (hready : M.ready = true)
    (hval : validate M (.batch recs) = .ok t)
    (hcap : (M.predictFn t).length = t.rows.length) :
    predict M (.batch recs) = .ok (M.predictFn t) ∧
    (M.predictFn t).length = recs.length := by
  have hr : checkReady M = .ok () := by rw [checkReady, if_pos hready]
  constructor
  · rw [predict, hr, hval]
  · rw [hcap, (validate_batch_ok M recs t hval).2.2]

/-- Counterexample to C3 as stated: `mdlC3` has class-name metadata
(`["no", "yes"]`), yet `predict` returns the estimator's raw integer label
`0`, which is not one of the declared label strings — the class-name
metadata is never consulted by `predict` (sklearn.py lines 117-119). -/
theorem C3_counterexample :
    mdlC3.metadata.class_names = some ["no", "yes"] ∧
    predict mdlC3 reqAge = .ok [PyVal.int 0] ∧
    PyVal.int 0 ∉ [PyVal.str "no", PyVal.str "yes"] :=
  ⟨rfl, by decide, by decide⟩

/-- Witness for the amended C3 on a concrete two-record batch. -/
theorem C3_predict_raw_labels_witness :
    predict mdlPipe (.batch recsTwo) = .ok (mdlPipe.predictFn tTwo) ∧
    (mdlPipe.predictFn tTwo).length = recsTwo.length :=
  C3_predict_raw_labels mdlPipe recsTwo tTwo rfl (by decide) (by decide)

/-- C4: on a classification task, `predict_proba` over a valid batch of `N`
records returns `N` mappings whose keys are exactly the ordered class labels
derived from the resolved base predictor's own class list (stringified), not
from the artifact metadata.  The capability hypotheses `hw`/`hn` are the
estimator contract: `predict_proba` yields one probability row per input
row, one column per fitted class. -/
theorem C4_predict_proba_keys (M : Model) (recs : List (List (String × PyVal)))
    (t : Table) (bp : EstTree) (cs : List PyVal)
    (hready : M.ready = true)
    (htask : M.metadata.task = Task.classification)
    (hval : validate M (.batch recs) = .ok t)
    (hex : extract M.model = .ok bp)
    (hcs : classesOf bp = some cs)
    (hw : ∀ row ∈ M.predictProbaFn t, row.length = cs.length)
    (hn : (M.predictProbaFn t).length = t.rows.length) :
    ∃ res, predictProba M (.batch recs) = .ok res ∧
      res.length = recs.length ∧
      ∀ rec ∈ res, rec.map Prod.fst = cs.map pyStr := by
  have hr : checkReady M = .ok () := by rw [checkReady, if_pos hready]
  have ht : checkTask M = .ok () := by rw [checkTask, if_pos htask]
  have hcn : getClassNames M = .ok (cs.map pyStr) := by
    simp only [getClassNames, hr, ht, hex, hcs]
  have hcond : ((M.predictProbaFn t).length ==
      (List.range (M.predictProbaFn t).length).length &&
      (M.predictProbaFn t).all fun row => row.length == (cs.map pyStr).length) = true := by
    simp only [Bool.and_eq_true, beq_iff_eq, List.length_range, List.all_eq_true,
      List.length_map]
    first
    | exact fun row hrow => hw row hrow
    | exact ⟨rfl, fun row hrow => hw row hrow⟩
    | exact ⟨trivial, fun row hrow => hw row hrow⟩
  have hdf : dfRecords (M.predictProbaFn t)
      (List.range (M.predictProbaFn t).length) (cs.map pyStr) =
      .ok ((M.predictProbaFn t).map fun row => (cs.map pyStr).zip row) := by
    rw [dfRecords, if_pos hcond]
  refine ⟨(M.predictProbaFn t).map (fun row => (cs.map pyStr).zip row), ?_, ?_, ?_⟩
  · simp only [predictProba, hr, ht, hval, hcn, hdf]
  · rw [List.length_map, hn, (validate_batch_ok M recs t hval).2.2]
  · exact dfRecords_keys _ _ _ _ hdf

/-- Witness for C4 on the calibrated-pipeline fixture, whose metadata
declares `no`/`yes` while the base predictor's classes are `0`/`1` — the
result keys come from the base predictor. -/
theorem C4_predict_proba_keys_witness :
    ∃ res, predictProba mdlPipe (.batch recsTwo) = .ok res ∧
      res.length = recsTwo.length ∧
      ∀ rec ∈ res, rec.map Prod.fst = [PyVal.int 0, PyVal.int 1].map pyStr :=
  C4_predict_proba_keys mdlPipe recsTwo tTwo
    (.plain "RandomForestClassifier" [.int 0, .int 1]) [.int 0, .int 1]
    rfl rfl (by decide) rfl rfl (by decide) (by decide)

/-- C8: every per-record attribution mapping produced by a successful
`explain` — in each class's sequence for classification, and in the result
sequence for regression — has exactly the schema's feature names as keys, in
schema order; the regression sequence is aligned with the preprocessed
table's index, so a single record (with the spec's shape-preserving
transform contract) yields a single-element sequence. -/
theorem C8_attribution_keys (M : Model)
    (shapFn : EstTree → ExplainParams → InputData → ShapOutput)
    (features : Request) (samples : Option Request) (r : ExplainResult)
    (h : explain M shapFn features samples = .ok r) :
    (∀ entries, r = .classification entries →
       ∀ e ∈ entries, ∀ rec ∈ e.2, rec.map Prod.fst = featureNames M) ∧
    (∀ recsL, r = .regression recsL →
       (∀ rec ∈ recsL, rec.map Prod.fst = featureNames M) ∧
       (∀ pre, preprocess M features = .ok pre → recsL.length = pre.index.length)) ∧
    (∀ recsL rec0, r = .regression recsL → features = .single rec0 →
       (∀ t, (applyTransform M t).index = t.index) →
       recsL.length = 1) := by
  refine ⟨?_, ?_, ?_⟩
  · intro entries hr
    subst hr
    obtain ⟨cls, pre, _, _, _, hk⟩ := explain_classification_ok M shapFn features samples entries h
    exact hk
  · intro recsL hr
    subst hr
    obtain ⟨pre, m, hpre, hdf⟩ := explain_regression_ok M shapFn features samples recsL h
    refine ⟨fun rec hrec => dfRecords_keys m pre.index (featureNames M) recsL hdf rec hrec, ?_⟩
    intro pre2 hpre2
    rw [hpre] at hpre2
    have : pre = pre2 := by injection hpre2
    subst this
    obtain ⟨hrecs, hlen, _⟩ := dfRecords_ok m pre.index (featureNames M) recsL hdf
    rw [hrecs, List.length_map, hlen]
  · intro recsL rec0 hr hf htr
    subst hr
    subst hf
    obtain ⟨pre, m, hpre, hdf⟩ := explain_regression_ok M shapFn (.single rec0) samples recsL h
    obtain ⟨hrecs, hlen, _⟩ := dfRecords_ok m pre.index (featureNames M) recsL hdf
    obtain ⟨_, v, hv, hpv⟩ := preprocess_ok M (.single rec0) pre hpre
    have hidx := (validate_single_ok M rec0 v hv).2.1
    rw [hrecs, List.length_map, hlen, hpv, htr v, hidx]
    rfl

/-- Witness for C8 on the concrete regression run: one record in, one
mapping out, keyed by the schema features. -/
theorem C8_attribution_keys_witness :
    (∀ rec ∈ [[("age", (1 : ℚ)), ("color", 2)]], rec.map Prod.fst = featureNames mdlReg) ∧
    ([[("age", (1 : ℚ)), ("color", 2)]] : List (List (String × ℚ))).length = 1 := by
  have happ := C8_attribution_keys mdlReg shapRegFn reqOneTwo none
    (.regression [[("age", 1), ("color", 2)]]) (by decide)
  exact ⟨(happ.2.1 _ rfl).1,
    happ.2.2 _ [("age", .int 30), ("color", .str "red")] rfl rfl (fun t => rfl)⟩

/-- C10: the class labels keying `predict_proba` and classification
`explain` results are always strings — the element-wise string rendering of
the base predictor's class list — even when the fitted classes are
numeric. -/
theorem C10_string_class_keys (M : Model) (bp : EstTree) (cs : List PyVal)
    (hex : extract M.model = .ok bp)
    (hcs : classesOf bp = some cs) :
    (∀ L, getClassNames M = .ok L → L = cs.map pyStr) ∧
    (∀ features res, predictProba M features = .ok res →
       ∀ rec ∈ res, rec.map Prod.fst = cs.map pyStr) ∧
    (∀ shapFn features samples entries,
       explain M shapFn features samples = .ok (.classification entries) →
       entries.map Prod.fst = cs.map pyStr) := by
  have hname : ∀ L, getClassNames M = .ok L → L = cs.map pyStr := by
    intro L hL
    obtain ⟨bp2, cs2, hex2, hcs2, hL2⟩ := getClassNames_ok M L hL
    rw [hex] at hex2
    have hbp : bp = bp2 := by injection hex2
    subst hbp
    rw [hcs] at hcs2
    have hcseq : cs = cs2 := by injection hcs2
    subst hcseq
    exact hL2
  refine ⟨hname, ?_, ?_⟩
  · intro features res h rec hrec
    obtain ⟨input, cls, _, hcn, hdf⟩ := predictProba_ok M features res h
    rw [← hname cls hcn]
    exact dfRecords_keys _ _ _ _ hdf rec hrec
  · intro shapFn features samples entries h
    obtain ⟨cls, pre, _, hcn, hk, _⟩ := explain_classification_ok M shapFn features samples entries h
    rw [hk, hname cls hcn]

/-- Witness for C10: the fixture's fitted classes are the integers `0`, `1`
and the result keys are their string renderings `"0"`, `"1"`. -/
theorem C10_string_class_keys_witness :
    (["0", "1"] = [PyVal.int 0, PyVal.int 1].map pyStr) ∧
    (∀ rec ∈ [[("0", (0 : ℚ)), ("1", 1)], [("0", (0 : ℚ)), ("1", 1)]],
       rec.map Prod.fst = [PyVal.int 0, PyVal.int 1].map pyStr) :=
  have happ := C10_string_class_keys mdlPipe
    (.plain "RandomForestClassifier" [.int 0, .int 1]) [.int 0, .int 1] rfl rfl
  ⟨happ.1 ["0", "1"] (by decide), happ.2.1 reqBatchTwo _ (by decide)⟩

/-- C2: in classification, when the raw attribution output is neither a
Python list of per-class arrays nor a single bare array with the model
binary (exactly two classes), `explain` fails with the fatal `ExplainError`
(`ValueError('Unknown objet class for shap_values variable')`, sklearn.py
line 215) and produces no attribution result. -/
theorem C2_unknown_shape_fatal (M : Model)
    (shapFn : EstTree → ExplainParams → InputData → ShapOutput)
    (features : Request) (samples : Option Request)
    (pre : Table) (params : ExplainParams) (bp : EstTree) (idt : Table)
    (cls : List String)
    (hcr : checkReady M = .ok ())
    (hce : checkExplainable M = .ok ())
    (hpre : preprocess M features = .ok pre)
    (hpar : explainParams M samples = .ok params)
    (hex : extract M.model = .ok bp)
    (hsel : selectCols pre (featureNames M) = .ok idt)
    (htask : M.metadata.task = Task.classification)
    (hcn : getClassNames M = .ok cls)
    (hnotlist : ∀ arrays, shapFn bp params (explainInputData (typeName bp) idt) ≠ .perClass arrays)
    (hnotbin : ∀ m, shapFn bp params (explainInputData (typeName bp) idt) = .single m →
       isBinaryClassification M = false) :
    explain M shapFn features samples = .error .ExplainError := by
  rw [explain]
  simp only [hcr, hce, hpre, hpar, hex, hsel, if_pos htask, hcn]
  cases hsv : shapFn bp params (explainInputData (typeName bp) idt) with
  | perClass arrays => exact absurd hsv (hnotlist arrays)
  | single m => simp [shapeDecision, hnotbin m hsv]
  | other => simp [shapeDecision]

/-- Witness for C2: an attribution oracle returning an unrecognized object
on the concrete binary fixture makes `explain` fail with `ExplainError`. -/
theorem C2_unknown_shape_fatal_witness :
    explain mdlBin shapOtherFn reqAge none = .error .ExplainError :=
  C2_unknown_shape_fatal mdlBin shapOtherFn reqAge none tAge
    ⟨none, "tree_path_dependent", "margin"⟩ (.plain "LGBMClassifier" [.int 0, .int 1]) tAge
    ["0", "1"] (by decide) (by decide) (by decide) (by decide) rfl (by decide) rfl
    (by decide) (fun arrays h => nomatch h) (fun m h => nomatch h)

/-- C1: for binary classification, when the raw attribution output is a
single shared array (case (b)), the classification result of `explain` has
exactly the two class entries, and for every record and every feature the
first class's attribution is the exact negation of the second class's:
`attrib[class0][feature] = -attrib[class1][feature]` (the source stores
`shap_values * (-1)` under class index 0 and `shap_values` under class
index 1, sklearn.py line 219). -/
theorem C1_binary_negation (M : Model)
    (shapFn : EstTree → ExplainParams → InputData → ShapOutput)
    (features : Request) (samples : Option Request)
    (m : List (List ℚ)) (c0 c1 : String)
    (entries : List (String × List (List (String × ℚ))))
    (hsv : ∀ bp p d, shapFn bp p d = .single m)
    (hcls : getClassNames M = .ok [c0, c1])
    (h : explain M shapFn features samples = .ok (.classification entries)) :
    ∃ recs0 recs1, entries = [(c0, recs0), (c1, recs1)] ∧
      ∀ j r0 r1, recs0.get? j = some r0 → recs1.get? j = some r1 →
        (∀ f v, r1.lookup f = some v → r0.lookup f = some (-v)) ∧
        (∀ f v, r0.lookup f = some v → r1.lookup f = some (-v)) := by
  rw [explain] at h
  cases hcr : checkReady M with
  | error e => simp only [hcr] at h; cases h
  | ok u =>
  simp only [hcr] at h
  cases hce : checkExplainable M with
  | error e => simp only [hce] at h; cases h
  | ok u2 =>
  simp only [hce] at h
  cases hpre : preprocess M features with
  | error e => simp only [hpre] at h; cases h
  | ok pre =>
  simp only [hpre] at h
  cases hpar : explainParams M samples with
  | error e => simp only [hpar] at h; cases h
  | ok params =>
  simp only [hpar] at h
  cases hex : extract M.model with
  | error e => simp only [hex] at h; cases h
  | ok basePred =>
  simp only [hex] at h
  cases hsel : selectCols pre (featureNames M) with
  | error e => simp only [hsel] at h; cases h
  | ok input_data =>
  simp only [hsel] at h
  rw [hsv basePred params (explainInputData (typeName basePred) input_data)] at h
  by_cases htask : M.metadata.task = Task.classification
  · simp only [if_pos htask] at h
    cases hcn : getClassNames M with
    | error e => simp only [hcn] at h; cases h
    | ok class_names =>
    simp only [hcn] at h
    rw [hcls] at hcn
    have hcn2 : [c0, c1] = class_names := by injection hcn
    subst hcn2
    by_cases hbin : isBinaryClassification M = true
    · simp only [shapeDecision, if_pos hbin] at h
      cases hdf0 : dfRecords (m.map (List.map (fun q => -q))) pre.index (featureNames M) with
      | error e =>
        simp [eMapM, List.enum, List.enumFrom, formatClass, classShapValues, hdf0] at h
      | ok recs0 =>
      cases hdf1 : dfRecords m pre.index (featureNames M) with
      | error e =>
        simp [eMapM, List.enum, List.enumFrom, formatClass, classShapValues, hdf0, hdf1] at h
      | ok recs1 =>
      have hent : entries = [(c0, recs0), (c1, recs1)] := by
        simp [eMapM, List.enum, List.enumFrom, formatClass, classShapValues, hdf0, hdf1] at h
        exact h.symm
      obtain ⟨hr0, _, _⟩ := dfRecords_ok _ _ _ _ hdf0
      obtain ⟨hr1, _, _⟩ := dfRecords_ok _ _ _ _ hdf1
      refine ⟨recs0, recs1, hent, ?_⟩
      intro j r0 r1 h0 h1
      rw [hr0] at h0
      rw [hr1] at h1
      rw [List.get?_map] at h1
      rw [List.map_map, List.get?_map] at h0
      cases hmj : m.get? j with
      | none => rw [hmj] at h1; cases h1
      | some row =>
        rw [hmj] at h0 h1
        have hh0 : r0 = (featureNames M).zip (row.map (fun q => -q)) := by
          injection h0 with hh
          exact hh.symm
        have hh1 : r1 = (featureNames M).zip row := by
          injection h1 with hh
          exact hh.symm
        subst hh0
        subst hh1
        exact ⟨fun f v hv => lookup_zip_neg (featureNames M) row f v hv,
               fun f v hv => lookup_zip_neg_rev (featureNames M) row f v hv⟩
    · simp only [shapeDecision, if_neg hbin] at h
      cases h
  · simp only [if_neg htask] at h
    cases hdf : dfRecords m pre.index (featureNames M) with
    | error e => simp only [hdf] at h; cases h
    | ok recs => simp only [hdf] at h; cases h

/-- Witness for C1 on the concrete binary LightGBM fixture: the raw shared
array `[[2]]` yields `-2` for class `"0"` and `2` for class `"1"`. -/
theorem C1_binary_negation_witness :
    ∃ recs0 recs1,
      ([("0", [[("age", (-2 : ℚ))]]), ("1", [[("age", (2 : ℚ))]])] :
        List (String × List (List (String × ℚ)))) = [("0", recs0), ("1", recs1)] ∧
      ∀ j r0 r1, recs0.get? j = some r0 → recs1.get? j = some r1 →
        (∀ f v, r1.lookup f = some v → r0.lookup f = some (-v)) ∧
        (∀ f v, r0.lookup f = some v → r1.lookup f = some (-v)) :=
  C1_binary_negation mdlBin shapSingleFn reqAge none [[2]] "0" "1" _
    (fun _ _ _ => rfl) (by decide) (by decide)

end MLFlask
